import Mathlib

/-!
Verification of the redimo sorted-set and geospatial engines
(`sorted_sets.go` and the geo source file) against their natural-language
specification, over a shallow embedding of the code and of the DynamoDB
store operations it consumes (GetItem / UpdateItem / DeleteItem / Query).
-/

namespace Redimo

/-- Go `float64` score values, modelled symbolically: finite rationals plus
the two infinities and NaN.  Finite-precision rounding is not modelled; no
claim below depends on it. -/
inductive Score where
  | negInf
  | finite (q : ℚ)
  | posInf
  | nan
deriving DecidableEq

/-- Modelled from the spec: the order that the score codec (`floatToLex`,
in `floats.go`, which is not under `src/`) induces on the encoded strings —
byte-wise string order matches numeric order for all finite values and places
the infinities at the extremes (spec §4.1).  `nan` is never stored (see
`bigNewFloat`); it is placed above `posInf` only so that the comparator is
total. -/
def scoreLe : Score → Score → Bool
  | .negInf, _ => true
  | _, .negInf => false
  | .finite a, .finite b => decide (a ≤ b)
  | .finite _, _ => true
  | _, .finite _ => false
  | .posInf, _ => true
  | _, .posInf => false
  | .nan, .nan => true

/-- Go `float64` addition (`oldScore + delta`) on the modelled scores. -/
def scoreAdd : Score → Score → Score
  | .nan, _ => .nan
  | _, .nan => .nan
  | .finite a, .finite b => .finite (a + b)
  | .posInf, .negInf => .nan
  | .negInf, .posInf => .nan
  | .posInf, _ => .posInf
  | _, .posInf => .posInf
  | .negInf, _ => .negInf
  | _, .negInf => .negInf

/-- Failure outcomes of an engine call.  `panicNaN` is the Go runtime panic
raised by `big.NewFloat` on NaN, `panicIndex` the panic of indexing an empty
slice, `invalidLimit` the store's ValidationException for `Limit ≤ 0`,
`contention` the ZINCRBY retry-exhaustion error (naming collection key and
member), `invalidScore` the InvalidScore error kind named by spec §7 (the
code never produces it; it is needed to state claims about it),
`storeError` a store transport/service failure propagated verbatim (spec §7
StoreError), and `outOfFuel` marks loop-bound exhaustion of the model
(unreachable for the stores used in the theorems below). -/
inductive Err where
  | panicNaN
  | panicIndex
  | invalidLimit
  | contention (key member : String)
  | invalidScore
  | storeError
  | outOfFuel
deriving DecidableEq

/-- `big.NewFloat` (Go standard library): panics when given a NaN, otherwise
converts the value exactly.  The panic is modelled as an error value. -/
def bigNewFloat : Score → Except Err Score
  | .nan => .error .panicNaN
  | s => .ok s

/-- Modelled from the spec: `floatToLex` (`floats.go`, not under `src/`), the
order-preserving score encoding.  Since the model orders the `sk2` attribute
directly by `scoreLe`, the encoding is the identity. -/
def floatToLex (s : Score) : Score := s

/-- Modelled from the spec: `lexToFloat` (`floats.go`, not under `src/`), the
lossless decoding; the identity under the identity encoding. -/
def lexToFloat (s : Score) : Score := s

/-- One stored item of a sorted-set collection: partition key (collection),
sort key (member name) and the secondary score attribute `sk2`. -/
structure Item where
  pk : String
  sk : String
  sk2 : Score
deriving DecidableEq

abbrev Table := List Item

/-- The store: the table contents plus the page-size behaviour of `Query`
(DynamoDB returns at most a bounded page per request; `none` means every
request is answered in a single page). -/
structure Store where
  items : Table
  cap : Option Nat
deriving DecidableEq

/-- Score-index comparison: by encoded score, ties broken by member name (the
local secondary index `lsi_sk2` is keyed on `(pk, sk2)` and carries the
primary sort key). -/
def idxLe (a b : Item) : Bool :=
  if a.sk2 == b.sk2 then decide (a.sk ≤ b.sk) else scoreLe a.sk2 b.sk2

/-- Insertion into a list sorted by `idxLe`. -/
def insertIdx (x : Item) : List Item → List Item
  | [] => [x]
  | y :: ys => if idxLe x y then x :: y :: ys else y :: insertIdx x ys

/-- Score-index order of a list of items. -/
def sortIdx : List Item → List Item
  | [] => []
  | x :: xs => insertIdx x (sortIdx xs)

/-- The key condition of the score queries: BETWEEN when both bounds are
present, `>=` / `<=` for a single bound (sorted_sets.go lines 62-78 and
270-277; an absent bound is the empty string in Go, `none` here). -/
def scoreCond (lo hi : Option Score) (x : Score) : Bool :=
  match lo, hi with
  | some a, some b => scoreLe a x && scoreLe x b
  | some a, none => scoreLe a x
  | none, some b => scoreLe x b
  | none, none => true

/-- The items of partition `key` whose `sk2` satisfies the range condition,
in score-index order, in the requested scan direction. -/
def dirMatches (t : Table) (key : String) (lo hi : Option Score) (forward : Bool) :
    List Item :=
  let s := sortIdx (t.filter fun it => it.pk == key && scoreCond lo hi it.sk2)
  if forward then s else s.reverse

/-- One `Query` request against the score index.  The continuation cursor is
modelled as the number of items already served (the table does not change
during a scan, so this is equivalent to the opaque `LastEvaluatedKey`).
DynamoDB rejects `Limit ≤ 0` (a ValidationException), modelled as
`invalidLimit`; a continuation is returned exactly when matching items remain
beyond the returned page. -/
def queryPage (st : Store) (key : String) (lo hi : Option Score) (forward : Bool)
    (limit : Option Int) (pos : Nat) : Except Err (List Item × Option Nat) :=
  let all := dirMatches st.items key lo hi forward
  let rest := all.drop pos
  match limit with
  | some l =>
      if l ≤ 0 then .error .invalidLimit
      else
        let eff := match st.cap with | some c => min l.toNat c | none => l.toNat
        let page := rest.take eff
        .ok (page, if pos + page.length < all.length then some (pos + page.length) else none)
  | none =>
      let eff := match st.cap with | some c => c | none => rest.length
      let page := rest.take eff
      .ok (page, if pos + page.length < all.length then some (pos + page.length) else none)

/-- The requested parameters of one page of `_zGeneralRange`, recorded for
observation: the `Limit` sent with the request, and the number of items
already examined (`index`) and the remaining budget (`remainingCount`) at the
moment the page was requested. -/
structure PageReq where
  limit : Option Int
  seen : Int
  remaining : Int
deriving DecidableEq

/-- The item loop inside a page of `_zGeneralRange` (sorted_sets.go lines
294-301): an item is skipped while `index < offset`, otherwise its member and
decoded score are collected and `remainingCount` is decremented; `index`
advances either way. -/
def processItems (offset : Int) :
    List Item → List (String × Score) → Int → Int →
    List (String × Score) × Int × Int
  | [], acc, index, remaining => (acc, index, remaining)
  | it :: rest, acc, index, remaining =>
      if offset ≤ index then
        processItems offset rest (acc ++ [(it.sk, lexToFloat it.sk2)]) (index + 1) (remaining - 1)
      else
        processItems offset rest acc (index + 1) remaining

/-- The page loop of `_zGeneralRange` (sorted_sets.go lines 252-308), with
the per-page requests recorded.  A query limit is sent only while
`remainingCount > 0`; the loop continues only when the store returned a
continuation and `remainingCount > 0` still holds.  `fuel` bounds the number
of iterations and is chosen large enough by the wrapper. -/
def zGRLoop (st : Store) (key : String) (lo hi : Option Score) (offset : Int)
    (forward : Bool) :
    Nat → Nat → Int → Int → List (String × Score) → List PageReq →
    Except Err (List (String × Score)) × List PageReq
  | 0, _, _, _, _, trace => (.error .outOfFuel, trace)
  | fuel + 1, pos, index, remaining, acc, trace =>
      let queryLimit : Option Int :=
        if 0 < remaining then some (remaining + offset - index) else none
      let trace := trace ++ [⟨queryLimit, index, remaining⟩]
      match queryPage st key lo hi forward queryLimit pos with
      | .error e => (.error e, trace)
      | .ok (items, lek) =>
          let pr := processItems offset items acc index remaining
          if lek.isSome && 0 < pr.2.2 then
            zGRLoop st key lo hi offset forward fuel (lek.getD pos) pr.2.1 pr.2.2 pr.1 trace
          else (.ok pr.1, trace)

/-- `_zGeneralRange` (sorted_sets.go lines 235-311): the multi-page range
scan under offset/count budget. -/
def _zGeneralRange (st : Store) (key : String) (lo hi : Option Score)
    (offset count : Int) (forward : Bool) : Except Err (List (String × Score)) :=
  (zGRLoop st key lo hi offset forward (st.items.length + 1) 0 0 count [] []).1

/-- The page-request trace of `_zGeneralRange`. -/
def zGeneralRangeTrace (st : Store) (key : String) (lo hi : Option Score)
    (offset count : Int) (forward : Bool) : List PageReq :=
  (zGRLoop st key lo hi offset forward (st.items.length + 1) 0 0 count [] []).2

/-- The page loop of `_zGeneralCount` (sorted_sets.go lines 89-112):
`Select COUNT` queries, summed over pages, always following the
continuation. -/
def zCountLoop (st : Store) (key : String) (lo hi : Option Score) :
    Nat → Nat → Int → Except Err Int
  | 0, _, _ => .error .outOfFuel
  | fuel + 1, pos, count =>
      let all := dirMatches st.items key lo hi true
      let rest := all.drop pos
      let eff := match st.cap with | some c => c | none => rest.length
      let page := rest.take eff
      let count := count + page.length
      if pos + page.length < all.length then
        zCountLoop st key lo hi fuel (pos + page.length) count
      else .ok count

/-- `_zGeneralCount` (sorted_sets.go lines 58-115) for the score attribute. -/
def _zGeneralCount (st : Store) (key : String) (lo hi : Option Score) :
    Except Err Int :=
  zCountLoop st key lo hi (st.items.length + 1) 0 0

/-- `GetItem` lookup of one member's item. -/
def findT (t : Table) (key member : String) : Option Item :=
  t.find? fun it => it.pk == key && it.sk == member

/-- An unconditional `UpdateItem SET sk2`: replaces the member's item or
creates it. -/
def upsertT : Table → String → String → Score → Table
  | [], key, member, s => [⟨key, member, s⟩]
  | it :: rest, key, member, s =>
      if it.pk == key && it.sk == member then ⟨key, member, s⟩ :: rest
      else it :: upsertT rest key member s

/-- `ZSCORE` (sorted_sets.go lines 392-408) on a raw table: point lookup of
the member's decoded score; Go's zero value `0.0` with `ok = false` when the
item is absent. -/
def zscoreT (t : Table) (key member : String) : Score × Bool :=
  match findT t key member with
  | some it => (lexToFloat it.sk2, true)
  | none => (.finite 0, false)

/-- `ZSCORE` against the store. -/
def ZSCORE (st : Store) (key member : String) : Score × Bool :=
  zscoreT st.items key member

/-- The `IfNotExists` / `IfAlreadyExists` flags of `ZADD`. -/
structure Flags where
  ifNotExists : Bool
  ifAlreadyExists : Bool
deriving DecidableEq

/-- `ZADD` (sorted_sets.go lines 13-48): per member, encode the score (Go
panics inside `big.NewFloat` on NaN, before any store request for that
member) and issue a conditional `UpdateItem SET sk2`; a condition failure
skips the member without counting it, a success increments `savedCount`. -/
def ZADD (st : Store) (key : String) (members : List (String × Score))
    (flags : Flags) : Except Err (Int × Table) :=
  members.foldl
    (fun acc m =>
      match acc with
      | .error e => .error e
      | .ok (saved, t) =>
          match bigNewFloat m.2 with
          | .error e => .error e
          | .ok enc =>
              let existing := (findT t key m.1).isSome
              if flags.ifNotExists && existing then .ok (saved, t)
              else if flags.ifAlreadyExists && !existing then .ok (saved, t)
              else .ok (saved + 1, upsertT t key m.1 (floatToLex enc)))
    (.ok (0, st.items))

/-- The attempt loop of `ZINCRBY` (sorted_sets.go lines 117-159).  Between
the read and the conditional write the table may be changed by concurrent
writers; this interference is modelled by the function `interfere`, applied
once per attempt (attempt number ↦ table transformation).  The write is
conditioned on the stored encoded score still being the one read (only when
the member existed at the read); a condition failure increments `tries` and
retries.  The first argument counts the attempts still allowed (`3 - tries`);
at zero the contention error naming collection key and member is returned. -/
def zincrGo (interfere : Nat → Table → Table) (key member : String) (delta : Score) :
    Nat → Nat → Table → Except Err (Score × Table)
  | 0, _, _ => .error (.contention key member)
  | r + 1, tries, t =>
      let read := zscoreT t key member
      let newScore := scoreAdd read.1 delta
      match bigNewFloat newScore with
      | .error e => .error e
      | .ok enc =>
          let t' := interfere tries t
          if read.2 then
            if (findT t' key member).map Item.sk2 = some (floatToLex read.1) then
              .ok (newScore, upsertT t' key member (floatToLex enc))
            else zincrGo interfere key member delta r (tries + 1) t'
          else .ok (newScore, upsertT t' key member (floatToLex enc))

/-- `ZINCRBY` under an explicit interference schedule. -/
def ZINCRBYi (interfere : Nat → Table → Table) (t : Table) (key member : String)
    (delta : Score) : Except Err (Score × Table) :=
  zincrGo interfere key member delta 3 0 t

/-- `ZINCRBY` with no concurrent interference. -/
def ZINCRBY (st : Store) (key member : String) (delta : Score) :
    Except Err (Score × Table) :=
  ZINCRBYi (fun _ t => t) st.items key member delta

/-- `ZCOUNT` (sorted_sets.go lines 54-56): both bounds are always encoded and
passed (never the empty string). -/
def ZCOUNT (st : Store) (key : String) (minScore maxScore : Score) :
    Except Err Int :=
  match bigNewFloat minScore with
  | .error e => .error e
  | .ok mn =>
      match bigNewFloat maxScore with
      | .error e => .error e
      | .ok mx => _zGeneralCount st key (some (floatToLex mn)) (some (floatToLex mx))

/-- `ZRANGEBYSCORE` (sorted_sets.go lines 231-233). -/
def ZRANGEBYSCORE (st : Store) (key : String) (minScore maxScore : Score)
    (offset count : Int) : Except Err (List (String × Score)) :=
  match bigNewFloat minScore with
  | .error e => .error e
  | .ok mn =>
      match bigNewFloat maxScore with
      | .error e => .error e
      | .ok mx =>
          _zGeneralRange st key (some (floatToLex mn)) (some (floatToLex mx)) offset count true

/-- `floatValues` (sorted_sets.go lines 219-225): the values of the result
map. -/
def floatValues (l : List (String × Score)) : List Score := l.map Prod.snd

/-- `_zrange` (sorted_sets.go lines 202-217).  Both bounds negative: reversed
scan with offset `-stop-1` and count `-start`.  `start > 0` and `stop < 0`:
resolve the score at tail offset `-stop-1` (count 1, reversed), then a
forward scan upper-bounded by that score with offset `start`, unbounded
count; indexing `floatValues(...)[0]` panics when the resolution came back
empty.  Otherwise: offset `start`, count `stop - start + 1`. -/
def _zrange (st : Store) (key : String) (start stop : Int) (forward : Bool) :
    Except Err (List (String × Score)) :=
  if start < 0 && stop < 0 then
    _zGeneralRange st key none none (-stop - 1) (-start) (!forward)
  else if 0 < start && stop < 0 then
    match _zGeneralRange st key none none (-stop - 1) 1 (!forward) with
    | .error e => .error e
    | .ok lastScore =>
        match (floatValues lastScore).head? with
        | none => .error .panicIndex
        | some s =>
            match bigNewFloat s with
            | .error e => .error e
            | .ok enc => _zGeneralRange st key none (some (floatToLex enc)) start 0 forward
  else
    _zGeneralRange st key none none start (stop - start + 1) forward

/-- `ZRANGE` (sorted_sets.go lines 198-200). -/
def ZRANGE (st : Store) (key : String) (start stop : Int) :
    Except Err (List (String × Score)) :=
  _zrange st key start stop true

/-- `ZREVRANGE` (sorted_sets.go lines 376-378). -/
def ZREVRANGE (st : Store) (key : String) (start stop : Int) :
    Except Err (List (String × Score)) :=
  _zrange st key start stop false

/-- `_zrank` (sorted_sets.go lines 317-334): score lookup, early return with
`ok = false` when absent, otherwise a count of members with score `≤` (when
forward) or `≥` (when reverse) the member's own encoded score, and
`rank = count - 1`. -/
def _zrank (st : Store) (key member : String) (forward : Bool) :
    Except Err (Int × Bool) :=
  let read := ZSCORE st key member
  if !read.2 then .ok (0, false)
  else
    match bigNewFloat read.1 with
    | .error e => .error e
    | .ok enc =>
        match
          (if forward then _zGeneralCount st key none (some (floatToLex enc))
           else _zGeneralCount st key (some (floatToLex enc)) none) with
        | .error e => .error e
        | .ok count => .ok (count - 1, true)

/-- `ZRANK` (sorted_sets.go lines 313-315). -/
def ZRANK (st : Store) (key member : String) : Except Err (Int × Bool) :=
  _zrank st key member true

/-- `ZREVRANK` (sorted_sets.go lines 388-390). -/
def ZREVRANK (st : Store) (key member : String) : Except Err (Int × Bool) :=
  _zrank st key member false

instance {ε α : Type} [DecidableEq ε] [DecidableEq α] : DecidableEq (Except ε α) :=
  fun x y =>
    match x, y with
    | .ok a, .ok b =>
        if h : a = b then isTrue (by rw [h])
        else isFalse (fun hh => h (Except.ok.inj hh))
    | .error a, .error b =>
        if h : a = b then isTrue (by rw [h])
        else isFalse (fun hh => h (Except.error.inj hh))
    | .ok _, .error _ => isFalse (fun hh => Except.noConfusion hh)
    | .error _, .ok _ => isFalse (fun hh => Except.noConfusion hh)

/-- A three-member collection with scores 1, 2, 3. -/
def t3 : Table :=
  [⟨"z", "m1", .finite 1⟩, ⟨"z", "m2", .finite 2⟩, ⟨"z", "m3", .finite 3⟩]

/-- A five-member collection with scores 1 through 5. -/
def t5 : Table :=
  [⟨"z", "m1", .finite 1⟩, ⟨"z", "m2", .finite 2⟩, ⟨"z", "m3", .finite 3⟩,
   ⟨"z", "m4", .finite 4⟩, ⟨"z", "m5", .finite 5⟩]

/-- `t3` behind a store that answers every query in one page. -/
def s3 : Store := ⟨t3, none⟩

/-- `t5` behind a store that answers every query in one page. -/
def s5 : Store := ⟨t5, none⟩

/-- `t3` behind a store that serves at most one item per query page. -/
def s3paged : Store := ⟨t3, some 1⟩

/-- Modelled from the claim C1 wording, for comparison with the code: for a
rank-range call with nonnegative `start` and negative `stop`, first resolve
the absolute score of the member at the computed tail position (offset
`-stop-1`, count 1, reversed direction), then issue a forward range over the
score index bounded BELOW by that resolved score. -/
def zrangeClaimedC1 (st : Store) (key : String) (start stop : Int) (forward : Bool) :
    Except Err (List (String × Score)) :=
  match _zGeneralRange st key none none (-stop - 1) 1 (!forward) with
  | .error e => .error e
  | .ok lastScore =>
      match (floatValues lastScore).head? with
      | none => .error .panicIndex
      | some s =>
          match bigNewFloat s with
          | .error e => .error e
          | .ok enc => _zGeneralRange st key (some (floatToLex enc)) none start 0 forward

/-- The amended C1 behaviour: for strictly positive `start` and negative
`stop`, resolve the absolute score at the tail position (offset `-stop-1`,
count 1, reversed direction), then issue a forward range bounded ABOVE by
that score, with offset `start` and no count bound. -/
def zrangeAmendedC1 (st : Store) (key : String) (start stop : Int) (forward : Bool) :
    Except Err (List (String × Score)) :=
  match _zGeneralRange st key none none (-stop - 1) 1 (!forward) with
  | .error e => .error e
  | .ok lastScore =>
      match (floatValues lastScore).head? with
      | none => .error .panicIndex
      | some s =>
          match bigNewFloat s with
          | .error e => .error e
          | .ok enc => _zGeneralRange st key none (some (floatToLex enc)) start 0 forward

/-- A one-member collection behind a single-page store. -/
def t1 : Table := [⟨"z", "m", .finite 1⟩]

/-- Store over `t1`. -/
def s1 : Store := ⟨t1, none⟩

/-- Modelled from the claim C3 wording, for comparison with the code: count
the members strictly ordered before the member in the chosen direction and
return `rank = count - 1`. -/
def zrankClaimedC3 (st : Store) (key member : String) (forward : Bool) :
    Except Err (Int × Bool) :=
  let read := ZSCORE st key member
  if !read.2 then .ok (0, false)
  else
    let strictBefore := st.items.filter fun it =>
      it.pk == key &&
        (if forward then scoreLe it.sk2 read.1 && !scoreLe read.1 it.sk2
         else scoreLe read.1 it.sk2 && !scoreLe it.sk2 read.1)
    .ok ((strictBefore.length : Int) - 1, true)

/-- The number of members of the collection whose score is at-or-before the
given score in the chosen direction (`≤` it when forward, `≥` it when
reversed); ties and the member itself are included. -/
def countAtOrBefore (t : Table) (key : String) (s : Score) (forward : Bool) : Nat :=
  (t.filter fun it =>
    it.pk == key && (if forward then scoreLe it.sk2 s else scoreLe s it.sk2)).length

/-- The items served by a single unlimited query from position 0: the first
page of the matching items (everything when the store does not page). -/
def firstPageItems (st : Store) (key : String) (lo hi : Option Score)
    (forward : Bool) : List Item :=
  let all := dirMatches st.items key lo hi forward
  all.take (match st.cap with | some c => c | none => all.length)

/-- All members of a collection, in ascending score order. -/
def membersAsc (t : Table) (key : String) : List Item :=
  sortIdx (t.filter fun it => it.pk == key)

/-- The per-page property the amended C2 asserts: the limit actually sent is
`remainingCount + offset - seen` (no limit once `remainingCount ≤ 0`), where
`remainingCount` is the original count minus the number of items already
collected (`seen - min seen offset`). -/
def TraceOK (offset count : Int) (e : PageReq) : Prop :=
  e.limit = (if 0 < e.remaining then some (e.remaining + offset - e.seen) else none) ∧
  e.remaining = count - (e.seen - min e.seen offset)

instance (offset count : Int) (e : PageReq) : Decidable (TraceOK offset count e) :=
  inferInstanceAs (Decidable (_ ∧ _))

/-- An adversary that, on every attempt, bumps the member's stored score by
one between ZINCRBY's read and its conditional write. -/
def bumpInterfere (key member : String) : Nat → Table → Table :=
  fun _ t => upsertT t key member (scoreAdd (zscoreT t key member).1 (.finite 1))

/-- An adversary that bumps the member's stored score on the first two
attempts only. -/
def bumpTwiceSchedule (key member : String) : Nat → Table → Table :=
  fun n t =>
    if n < 2 then upsertT t key member (scoreAdd (zscoreT t key member).1 (.finite 1))
    else t

/-- A geographic position in degrees (Go `Location{Lat, Lon}`; the zero
value is latitude 0, longitude 0). -/
structure Location where
  lat : ℚ
  lon : ℚ
deriving DecidableEq

/-- A stored geo item: partition key, member name, and the spatial-cell
integer held in the secondary attribute `skGeoCell`. -/
structure GeoItem where
  pk : String
  sk : String
  cell : Nat
deriving DecidableEq

abbrev GeoTable := List GeoItem

/-- The geo store with its paging behaviour, as for sorted sets. -/
structure GeoStore where
  items : GeoTable
  cap : Option Nat

/-- The external geographic library (the golang/geo s2 package is a
collaborator outside this repository): the cell codec
(`s2.CellIDFromLatLng`), the cell's representative point
(`s2Cell.LatLng`), the great-circle distance in meters
(`Distance(...).Radians() * EarthRadiusMeters`), and the covering cells of a
disc (`CapFromCenterAngle(...).CellUnionBound()`) given center and radius in
meters, each cell given as its `(RangeMin, RangeMax)` integer sub-range. -/
structure GeoLib where
  cellOf : Location → Nat
  locOf : Nat → Location
  distMeters : Location → Location → ℚ
  covering : Location → ℚ → List (Nat × Nat)

/-- Go's `Unit float64` (named `GUnit` here because `Unit` is taken in
Lean). -/
abbrev GUnit := ℚ

/-- `Unit.To` (geo source lines 59-61): `(d / to) * from`. -/
def GUnit.To (src dst : GUnit) (d : ℚ) : ℚ := d / dst * src

/-- `Meters Unit = 1.0`. -/
def Meters : GUnit := 1

/-- `Kilometers Unit = 1000.0`. -/
def Kilometers : GUnit := 1000

/-- `Miles Unit = 1609.34`. -/
def Miles : GUnit := 1609.34

/-- `Feet Unit = 0.3048`. -/
def Feet : GUnit := 0.3048

/-- `Location.DistanceTo` (geo source lines 44-46): the library's
great-circle distance in meters, converted to the requested unit. -/
def distanceTo (g : GeoLib) (l other : Location) (unit : GUnit) : ℚ :=
  GUnit.To Meters unit (g.distMeters l other)

/-- `GetItem` lookup of one geo member. -/
def findG (t : GeoTable) (key member : String) : Option GeoItem :=
  t.find? fun it => it.pk == key && it.sk == member

/-- Unconditional `UpdateItem SET skGeoCell`. -/
def upsertG : GeoTable → String → String → Nat → GeoTable
  | [], key, member, c => [⟨key, member, c⟩]
  | it :: rest, key, member, c =>
      if it.pk == key && it.sk == member then ⟨key, member, c⟩ :: rest
      else it :: upsertG rest key member c

/-- The member loop of `GEOADD` (geo source lines 71-87): per member an
unconditional `UpdateItem SET skGeoCell`; a store transport failure (spec §7
StoreError, the only error path) aborts the batch and is returned alongside
the current `addedCount`.  Which writes fail is modelled by the schedule
`failOn`, naming the members whose UpdateItem fails.  No line of the loop
increments `addedCount` (contrast ZADD's `savedCount++`). -/
def geoAddGo (g : GeoLib) (failOn : String → Bool) (key : String) :
    List (String × Location) → Int → GeoTable → Int × GeoTable × Option Err
  | [], saved, tb => (saved, tb, none)
  | m :: rest, saved, tb =>
      if failOn m.1 then (saved, tb, some .storeError)
      else geoAddGo g failOn key rest saved (upsertG tb key m.1 (g.cellOf m.2))

/-- `GEOADD` (geo source lines 70-90): the loop entered with
`addedCount = 0`; returns `(addedCount, final table, err)`. -/
def GEOADD (g : GeoLib) (failOn : String → Bool) (t : GeoTable) (key : String)
    (members : List (String × Location)) : Int × GeoTable × Option Err :=
  geoAddGo g failOn key members 0 t

/-- Modelled from the claim C8 wording, for comparison with the code: "the
number of writes completed before an error when one occurs" — the members
written before the first failing write. -/
def geoAddClaimedCountC8 (failOn : String → Bool)
    (members : List (String × Location)) : Int :=
  ((members.takeWhile fun m => !failOn m.1).length : Int)

/-- `GEOPOS` (geo source lines 115-135): per-member GetItem; found members
decode to the stored cell's representative point; absent members are simply
not in the returned map. -/
def GEOPOS (g : GeoLib) (t : GeoTable) (key : String) (members : List String) :
    List (String × Location) :=
  members.filterMap fun m => (findG t key m).map fun it => (m, g.locOf it.cell)

/-- Cell-index comparison for the `skGeoCell` secondary index. -/
def geoLe (a b : GeoItem) : Bool :=
  if a.cell == b.cell then decide (a.sk ≤ b.sk) else decide (a.cell ≤ b.cell)

/-- Insertion into a list sorted by `geoLe`. -/
def insertGeo (x : GeoItem) : List GeoItem → List GeoItem
  | [] => [x]
  | y :: ys => if geoLe x y then x :: y :: ys else y :: insertGeo x ys

/-- Cell-index order of a list of geo items. -/
def sortGeo : List GeoItem → List GeoItem
  | [] => []
  | x :: xs => insertGeo x (sortGeo xs)

/-- The items of the partition whose cell lies in the BETWEEN sub-range of
one covering cell, in index order. -/
def geoMatches (t : GeoTable) (key : String) (lo hi : Nat) : List GeoItem :=
  sortGeo (t.filter fun it =>
    it.pk == key && decide (lo ≤ it.cell) && decide (it.cell ≤ hi))

/-- One page of the covering-cell range query (`Limit = count`, ascending
scan), with the position-based continuation cursor as for sorted sets. -/
def geoPage (st : GeoStore) (key : String) (lo hi : Nat) (limit : Int)
    (pos : Nat) : List GeoItem × Option Nat :=
  let all := geoMatches st.items key lo hi
  let rest := all.drop pos
  let eff := match st.cap with | some c => min limit.toNat c | none => limit.toNat
  let page := rest.take eff
  (page, if pos + page.length < all.length then some (pos + page.length) else none)

/-- The accept loop over a page's items (geo source lines 173-181): decode
each candidate's location and keep the member only when the recomputed exact
distance from the center is within the radius, decrementing the shared
`count` per accepted member. -/
def geoProcess (g : GeoLib) (center : Location) (radius : ℚ) (unit : GUnit) :
    List GeoItem → List (String × Location) × Int →
    List (String × Location) × Int
  | [], ac => ac
  | it :: rest, ac =>
      if distanceTo g center (g.locOf it.cell) unit ≤ radius then
        geoProcess g center radius unit rest
          (ac.1 ++ [(it.sk, g.locOf it.cell)], ac.2 - 1)
      else geoProcess g center radius unit rest ac

/-- The per-cell page loop of `GEORADIUS` (geo source lines 148-182): while
a continuation exists and `count > 0`, query the next page with
`Limit = count`, advance the cursor, and post-filter the page. -/
def geoInner (g : GeoLib) (st : GeoStore) (key : String) (lo hi : Nat)
    (center : Location) (radius : ℚ) (unit : GUnit) :
    Nat → Nat → Bool → List (String × Location) × Int →
    List (String × Location) × Int
  | 0, _, _, ac => ac
  | fuel + 1, pos, hasMore, ac =>
      if hasMore && 0 < ac.2 then
        let pg := geoPage st key lo hi ac.2 pos
        geoInner g st key lo hi center radius unit fuel (pg.2.getD pos) pg.2.isSome
          (geoProcess g center radius unit pg.1 ac)
      else ac

/-- `GEORADIUS` (geo source lines 137-186): for each covering cell of the
disc of the given radius around the center, range-query that cell's integer
sub-range under the shared count budget, keeping only candidates whose
recomputed distance is within the radius. -/
def GEORADIUS (g : GeoLib) (st : GeoStore) (key : String) (center : Location)
    (radius : ℚ) (unit : GUnit) (count : Int) : List (String × Location) :=
  ((g.covering center (GUnit.To unit Meters radius)).foldl
    (fun ac cell =>
      geoInner g st key cell.1 cell.2 center radius unit (st.items.length + 1) 0 true ac)
    ([], count)).1

/-- `GEORADIUSBYMEMBER` (geo source lines 188-195): resolve the member
through `GEOPOS`; the Go map access `locations[member]` yields the
zero-value `Location{0, 0}` when the member was not found, and that location
becomes the search center. -/
def GEORADIUSBYMEMBER (g : GeoLib) (st : GeoStore) (key member : String)
    (radius : ℚ) (unit : GUnit) (count : Int) : List (String × Location) :=
  let locations := GEOPOS g st.items key [member]
  GEORADIUS g st key
    (((locations.find? fun p => p.1 == member).map Prod.snd).getD ⟨0, 0⟩)
    radius unit count

/-- A concrete geographic library for witnesses: cells on a line, taxicab
distance. -/
def g0 : GeoLib where
  cellOf := fun _ => 0
  locOf := fun c => ⟨(c : ℚ), 0⟩
  distMeters := fun a b => |a.lat - b.lat| + |a.lon - b.lon|
  covering := fun _ _ => [(0, 10)]

/-- A concrete geo store: one member at distance 3 from the origin under
`g0`, inside the covering cell range. -/
def gs1 : GeoStore := ⟨[⟨"g", "m1", 3⟩], none⟩

/-- C1 (counterexample): the claimed behaviour differs from the code.  At
`start = 0` (nonnegative, in the claim's scope) the code skips the tail
resolution entirely and returns all three members, and at `start = 1`,
`stop = -1` a range bounded below by the resolved score would return nothing
while the code (which bounds the range above) returns the two highest
members. -/
theorem C1_counterexample :
    ZRANGE s3 "z" 0 (-2) ≠ zrangeClaimedC1 s3 "z" 0 (-2) true ∧
    ZRANGE s3 "z" 1 (-1) ≠ zrangeClaimedC1 s3 "z" 1 (-1) true := by
  constructor <;> decide

/-- C1 (amended): for every rank-range call with strictly positive `start`
and negative `stop`, the engine first resolves the absolute score of the
member at the computed tail position (offset `-stop-1`, count 1, reversed
direction) and then issues a forward range over the score index bounded
above by that resolved score with offset `start`, returning the members so
selected. -/
theorem C1_theorem (st : Store) (key : String) (start stop : Int) (forward : Bool)
    (h1 : 0 < start) (h2 : stop < 0) :
    _zrange st key start stop forward = zrangeAmendedC1 st key start stop forward := by
  have h3 : ¬ (start < 0) := by omega
  simp [_zrange, zrangeAmendedC1, h1, h2, h3]

/-- C1 (witness): the amended theorem applied at a concrete store. -/
theorem C1_witness :
    _zrange s3 "z" 1 (-1) true = zrangeAmendedC1 s3 "z" 1 (-1) true :=
  C1_theorem s3 "z" 1 (-1) true (by decide) (by decide)

/-- Inserting keeps one more element. -/
theorem length_insertIdx (x : Item) (l : List Item) :
    (insertIdx x l).length = l.length + 1 := by
  induction l with
  | nil => rfl
  | cons y ys ih =>
      rw [insertIdx]
      by_cases h : idxLe x y = true
      · simp [h]
      · simp [h, ih]

/-- Sorting preserves length. -/
theorem length_sortIdx (l : List Item) : (sortIdx l).length = l.length := by
  induction l with
  | nil => rfl
  | cons y ys ih => rw [sortIdx, length_insertIdx, ih]; rfl

/-- The number of matching items is the length of the filtered table,
whatever the direction. -/
theorem length_dirMatches (t : Table) (key : String) (lo hi : Option Score)
    (forward : Bool) :
    (dirMatches t key lo hi forward).length =
      (t.filter fun it => it.pk == key && scoreCond lo hi it.sk2).length := by
  cases forward <;> simp [dirMatches, length_sortIdx]

/-- `big.NewFloat` succeeds on everything except NaN. -/
theorem bigNewFloat_ok (s : Score) (h : s ≠ .nan) : bigNewFloat s = .ok s := by
  cases s <;> simp_all [bigNewFloat]

/-- Against a store that answers in one page, `_zGeneralCount` returns the
number of matching items. -/
theorem zGeneralCount_single (t : Table) (key : String) (lo hi : Option Score) :
    _zGeneralCount ⟨t, none⟩ key lo hi =
      .ok ((dirMatches t key lo hi true).length : Int) := by
  simp [_zGeneralCount, zCountLoop]

/-- C3 (counterexample): on a one-member collection the member's rank is 0,
while "count of members strictly ordered before it, minus one" would be -1;
the code counts members ordered at-or-before the member (itself included),
not strictly before. -/
theorem C3_counterexample :
    ZRANK s1 "z" "m" ≠ zrankClaimedC3 s1 "z" "m" true := by decide

/-- C3 (amended): for a member present with score `s`, ZRANK/ZREVRANK counts
the members ordered at-or-before it in the chosen direction (non-strictly:
the member itself and any score ties are counted) and returns
`rank = count - 1`; for an absent member it returns `ok = false` and no
rank. -/
theorem C3_theorem (t : Table) (key member : String) (s : Score) (forward : Bool)
    (hs : s ≠ .nan) :
    (zscoreT t key member = (s, true) →
       _zrank ⟨t, none⟩ key member forward =
         .ok ((countAtOrBefore t key s forward : Int) - 1, true)) ∧
    ((zscoreT t key member).2 = false →
       _zrank ⟨t, none⟩ key member forward = .ok (0, false)) := by
  constructor
  · intro h
    have hb : bigNewFloat s = .ok s := bigNewFloat_ok s hs
    cases forward <;>
      simp [_zrank, ZSCORE, h, hb, zGeneralCount_single, countAtOrBefore,
        length_dirMatches, floatToLex, scoreCond]
  · intro h
    simp [_zrank, ZSCORE, h]

/-- C3 (witness): the amended theorem at a concrete collection: m2 has rank
1 = (count of scores ≤ 2) - 1. -/
theorem C3_witness :
    _zrank ⟨t3, none⟩ "z" "m2" true =
      .ok ((countAtOrBefore t3 "z" (.finite 2) true : Int) - 1, true) :=
  (C3_theorem t3 "z" "m2" (.finite 2) true (by decide)).1 (by decide)

/-- C5: evaluation of `ZRANGE` at the failing input.  On the five-member
collection, `ZRANGE(z, -3, -2)` addresses the members at tail positions
-3..-2 ({m3, m4} under Redis-style addressing, spec §4.4), but the code
converts the bounds to offset `-stop-1 = 1` and count `-start = 3` and so
returns the three members m4, m3, m2. -/
theorem C5_eval :
    ZRANGE s5 "z" (-3) (-2) =
      .ok [("m4", .finite 4), ("m3", .finite 3), ("m2", .finite 2)] ∧
    ("m2", Score.finite 2) ∈
      ((ZRANGE s5 "z" (-3) (-2)).toOption.getD []) := by
  constructor <;> decide

/-- Closed form of the page item loop: the items at running index `≥ offset`
are collected in order, and `remainingCount` drops by the number collected. -/
theorem processItems_drop (offset : Int) (items : List Item) :
    ∀ (acc : List (String × Score)) (index remaining : Int),
      processItems offset items acc index remaining =
        (acc ++ ((items.drop (offset - index).toNat).map fun it => (it.sk, lexToFloat it.sk2)),
         index + items.length,
         remaining - ((items.drop (offset - index).toNat).length : Int)) := by
  induction items with
  | nil => intro acc index remaining; simp [processItems]
  | cons it rest ih =>
      intro acc index remaining
      by_cases hoi : offset ≤ index
      · have h0 : (offset - index).toNat = 0 := by omega
        have h0' : (offset - (index + 1)).toNat = 0 := by omega
        simp [processItems, hoi, ih, h0, h0']
        constructor <;> omega
      · have h1 : (offset - index).toNat = (offset - (index + 1)).toNat + 1 := by omega
        simp [processItems, hoi, ih, h1]
        omega

/-- When the count budget is not positive, `_zGeneralRange` sends no limit
but also never follows a continuation (the loop requires `remainingCount >
0` to continue): it returns the collected part of exactly one page. -/
theorem zGR_count_nonpos (st : Store) (key : String) (lo hi : Option Score)
    (offset count : Int) (forward : Bool) (hc : count ≤ 0) :
    _zGeneralRange st key lo hi offset count forward =
      .ok (((firstPageItems st key lo hi forward).drop offset.toNat).map
        fun it => (it.sk, lexToFloat it.sk2)) := by
  have hc' : ¬ ((0:Int) < count) := by omega
  have hcn : ∀ n : Nat, ¬ ((0:Int) < count - n) := by intro n; omega
  unfold _zGeneralRange
  rw [zGRLoop]
  simp only [hc', if_false, queryPage, List.drop_zero, processItems_drop,
    List.nil_append, decide_eq_true_eq]
  simp [hcn, firstPageItems]

/-- C9: for a zero `start` and negative `stop`, the tail-resolution branch is
skipped (it requires `start > 0`), the computed count `stop - start + 1` is
not positive and so no limit is sent, and the call returns every member of
the collection from rank 0 onward regardless of the value of `stop` (store
answering in one page). -/
theorem C9_theorem (t : Table) (key : String) (stop : Int) (h : stop < 0) :
    ZRANGE ⟨t, none⟩ key 0 stop =
      .ok ((membersAsc t key).map fun it => (it.sk, lexToFloat it.sk2)) := by
  have h1 : ¬ ((0:Int) < 0) := by omega
  have hc : stop - 0 + 1 ≤ 0 := by omega
  unfold ZRANGE _zrange
  simp only [h1, h, decide_eq_true_eq, if_false, Bool.and_eq_true, and_false,
    false_and, if_neg, not_false_eq_true]
  rw [zGR_count_nonpos _ _ _ _ _ _ _ hc]
  simp [firstPageItems, membersAsc, dirMatches, scoreCond]

/-- C9 (witness): `ZRANGE(z, 0, -2)` on the three-member store returns all
three members; the highest-scored member is not excluded. -/
theorem C9_witness :
    ZRANGE ⟨t3, none⟩ "z" 0 (-2) =
      .ok ((membersAsc t3 "z").map fun it => (it.sk, lexToFloat it.sk2)) :=
  C9_theorem t3 "z" (-2) (by decide)

/-- Invariant of the `_zGeneralRange` page loop: every recorded page request
satisfies `TraceOK`. -/
theorem zGRLoop_trace (st : Store) (key : String) (lo hi : Option Score)
    (offset count : Int) (forward : Bool) :
    ∀ (fuel pos : Nat) (index remaining : Int) (acc : List (String × Score))
      (trace : List PageReq),
      remaining = count - (index - min index offset) →
      (∀ e ∈ trace, TraceOK offset count e) →
      ∀ e ∈ (zGRLoop st key lo hi offset forward fuel pos index remaining acc trace).2,
        TraceOK offset count e := by
  intro fuel
  induction fuel with
  | zero =>
      intro pos index remaining acc trace hinv htr e he
      rw [zGRLoop] at he
      exact htr e he
  | succ fuel ih =>
      intro pos index remaining acc trace hinv htr e he
      rw [zGRLoop] at he
      have htr' : ∀ e ∈ trace ++
          [(⟨if 0 < remaining then some (remaining + offset - index) else none,
             index, remaining⟩ : PageReq)], TraceOK offset count e := by
        intro e' he'
        rcases List.mem_append.1 he' with hh | hh
        · exact htr e' hh
        · rw [List.mem_singleton] at hh
          subst hh
          exact ⟨rfl, hinv⟩
      cases hq : queryPage st key lo hi forward
          (if 0 < remaining then some (remaining + offset - index) else none) pos with
      | error err =>
          simp only [hq] at he
          exact htr' e he
      | ok pr =>
          obtain ⟨items, lek⟩ := pr
          simp only [hq, processItems_drop] at he
          by_cases hcont :
              (lek.isSome &&
                decide (0 < remaining -
                  ((items.drop (offset - index).toNat).length : Int))) = true
          · rw [if_pos hcont] at he
            refine ih _ _ _ _ _ ?_ htr' e he
            have hk := List.length_drop (offset - index).toNat items
            omega
          · rw [if_neg hcont] at he
            exact htr' e he

/-- C2 (amended): in every range scan, each page's requested query limit
equals `remainingCount + offset - seen`, where `remainingCount` is the
budget `count` minus the number of items already collected
(`seen - min seen offset`) — this equals `count + offset - seen` only while
`seen ≤ offset`; once `remainingCount ≤ 0` no limit is sent.  When
`count ≤ 0` no limit is ever set, but the scan never follows a continuation:
it returns the collected part of the first page only (hence all matching
items exactly when the store serves them in one page). -/
theorem C2_theorem (st : Store) (key : String) (lo hi : Option Score)
    (offset count : Int) (forward : Bool) (hoff : 0 ≤ offset) :
    (∀ e ∈ zGeneralRangeTrace st key lo hi offset count forward,
        TraceOK offset count e) ∧
    (count ≤ 0 →
      _zGeneralRange st key lo hi offset count forward =
        .ok (((firstPageItems st key lo hi forward).drop offset.toNat).map
          fun it => (it.sk, lexToFloat it.sk2))) := by
  constructor
  · exact zGRLoop_trace st key lo hi offset count forward _ 0 0 count [] []
      (by omega) (by simp)
  · intro hc
    exact zGR_count_nonpos st key lo hi offset count forward hc

/-- C2 (counterexample): against a store serving one item per page, a scan
with `count = 2`, `offset = 0` requests limit 2 and then limit 0, while the
claim's formula `count + offset - seen` demands 2 then 1 (the code
subtracts the collected items twice); and with `count ≤ 0` the scan returns
only the first page's single member instead of all three matching members. -/
theorem C2_counterexample :
    (¬ ∀ e ∈ zGeneralRangeTrace s3paged "z" none none 0 2 true,
        e.limit = some (2 + 0 - e.seen)) ∧
    ZRANGE s3paged "z" 0 (-1) ≠
      .ok [("m1", .finite 1), ("m2", .finite 2), ("m3", .finite 3)] := by
  constructor <;> decide

/-- C2 (witness): the amended theorem applied to the paging store with
`count = 0`: the scan returns exactly the first page. -/
theorem C2_witness :
    _zGeneralRange s3paged "z" none none 0 0 true =
      .ok (((firstPageItems s3paged "z" none none true).drop (0:Int).toNat).map
        fun it => (it.sk, lexToFloat it.sk2)) :=
  (C2_theorem s3paged "z" none none 0 0 true (by decide)).2 (by decide)

/-- Helper: Go float64 addition with NaN on the right is NaN. -/
theorem scoreAdd_nan (s : Score) : scoreAdd s .nan = .nan := by
  cases s <;> rfl

/-- A lookup after an upsert finds the written item. -/
theorem findT_upsertT (t : Table) (key member : String) (s : Score) :
    findT (upsertT t key member s) key member = some ⟨key, member, s⟩ := by
  induction t with
  | nil => simp [findT, upsertT, List.find?]
  | cons it rest ih =>
      by_cases h : (it.pk == key && it.sk == member) = true
      · simp [upsertT, h, findT, List.find?]
      · simp only [upsertT, h, if_false, Bool.false_eq_true]
        simpa [findT, List.find?, h] using ih

/-- A read after an upsert sees the written score. -/
theorem zscoreT_upsertT (t : Table) (key member : String) (s : Score) :
    zscoreT (upsertT t key member s) key member = (s, true) := by
  simp [zscoreT, findT_upsertT, lexToFloat]

/-- C6: ZINCRBY reads the current score and writes `old + delta` conditioned
on the stored score being unchanged since the read.  A member that does not
exist is created with score `delta` and `delta` is returned (the write is
then unconditional).  When an adversary invalidates the condition on the
first two attempts, the third attempt succeeds with the then-current score
plus delta; when the condition fails on all attempts (`tries < 3` bounds the
loop to 3 total attempts), ZINCRBY fails with the contention error naming
the collection key and the member. -/
theorem C6_theorem (t : Table) (key member : String) (q d : ℚ) :
    (findT t key member = none →
      ZINCRBY ⟨t, none⟩ key member (.finite d) =
        .ok (.finite d, upsertT t key member (.finite d))) ∧
    (findT t key member = some ⟨key, member, .finite q⟩ →
      ZINCRBY ⟨t, none⟩ key member (.finite d) =
        .ok (.finite (q + d), upsertT t key member (.finite (q + d))) ∧
      (ZINCRBYi (bumpTwiceSchedule key member) t key member (.finite d)).map Prod.fst =
        .ok (.finite (q + 1 + 1 + d)) ∧
      ZINCRBYi (bumpInterfere key member) t key member (.finite d) =
        .error (.contention key member)) := by
  constructor
  · intro h
    simp [ZINCRBY, ZINCRBYi, zincrGo, zscoreT, h, scoreAdd, bigNewFloat,
      floatToLex, lexToFloat, zero_add]
  · intro h
    have hz : zscoreT t key member = (.finite q, true) := by
      simp [zscoreT, h, lexToFloat]
    refine ⟨?_, ?_, ?_⟩
    · simp [ZINCRBY, ZINCRBYi, zincrGo, hz, h, scoreAdd, bigNewFloat,
        floatToLex, lexToFloat]
    · simp [ZINCRBYi, zincrGo, hz, h, scoreAdd, bigNewFloat, floatToLex,
        lexToFloat, bumpTwiceSchedule, findT_upsertT, zscoreT_upsertT,
        add_right_eq_self, Except.map]
    · simp [ZINCRBYi, zincrGo, hz, h, scoreAdd, bigNewFloat, floatToLex,
        lexToFloat, bumpInterfere, findT_upsertT, zscoreT_upsertT,
        add_right_eq_self]

/-- C6 (witness): the theorem at concrete tables — creation with score =
delta on a fresh collection; a clean increment; success on the third attempt
under two interferences; contention naming key and member under permanent
interference. -/
theorem C6_witness :
    ZINCRBY ⟨[], none⟩ "z" "m" (.finite 2) =
      .ok (.finite 2, upsertT [] "z" "m" (.finite 2)) ∧
    ZINCRBY ⟨t1, none⟩ "z" "m" (.finite 2) =
      .ok (.finite (1 + 2), upsertT t1 "z" "m" (.finite (1 + 2))) ∧
    (ZINCRBYi (bumpTwiceSchedule "z" "m") t1 "z" "m" (.finite 2)).map Prod.fst =
      .ok (.finite (1 + 1 + 1 + 2)) ∧
    ZINCRBYi (bumpInterfere "z" "m") t1 "z" "m" (.finite 2) =
      .error (.contention "z" "m") :=
  ⟨(C6_theorem [] "z" "m" 0 2).1 rfl,
   ((C6_theorem t1 "z" "m" 1 2).2 (by decide)).1,
   ((C6_theorem t1 "z" "m" 1 2).2 (by decide)).2.1,
   ((C6_theorem t1 "z" "m" 1 2).2 (by decide)).2.2⟩

/-- C4 (counterexample): a NaN score does not produce the InvalidScore error
the claim describes, for any of ZADD, ZINCRBY, ZCOUNT, ZRANGEBYSCORE. -/
theorem C4_counterexample :
    ZADD ⟨[], none⟩ "k" [("m", Score.nan)] ⟨false, false⟩ ≠ .error .invalidScore ∧
    ZINCRBY ⟨[], none⟩ "k" "m" Score.nan ≠ .error .invalidScore ∧
    ZCOUNT ⟨[], none⟩ "k" Score.nan (.finite 0) ≠ .error .invalidScore ∧
    ZRANGEBYSCORE ⟨[], none⟩ "k" Score.nan (.finite 0) 0 1 ≠ .error .invalidScore := by
  refine ⟨?_, ?_, ?_, ?_⟩ <;> decide

/-- C4 (amended): a NaN score is not handled specially: each of ZADD (single
member), ZINCRBY, ZCOUNT and ZRANGEBYSCORE panics inside the big-float
conversion (modelled as the `panicNaN` error).  For ZADD, ZCOUNT and
ZRANGEBYSCORE the panic occurs before any store request; ZINCRBY first reads
the current score and panics when encoding the NaN sum.  No InvalidScore
error value exists in the code. -/
theorem C4_theorem (st : Store) (key member : String) (mx : Score)
    (offset count : Int) (flags : Flags) :
    ZADD st key [(member, Score.nan)] flags = .error .panicNaN ∧
    ZINCRBY st key member Score.nan = .error .panicNaN ∧
    ZCOUNT st key Score.nan mx = .error .panicNaN ∧
    ZRANGEBYSCORE st key Score.nan mx offset count = .error .panicNaN := by
  refine ⟨?_, ?_, ?_, ?_⟩
  · rfl
  · simp [ZINCRBY, ZINCRBYi, zincrGo, scoreAdd_nan, bigNewFloat]
  · rfl
  · rfl

/-- Accepted members of `geoProcess` were either already accepted or passed
the distance filter. -/
theorem geoProcess_mem (g : GeoLib) (center : Location) (radius : ℚ)
    (unit : GUnit) :
    ∀ (items : List GeoItem) (ac : List (String × Location) × Int)
      (m : String) (l : Location),
      (m, l) ∈ (geoProcess g center radius unit items ac).1 →
      (m, l) ∈ ac.1 ∨ distanceTo g center l unit ≤ radius := by
  intro items
  induction items with
  | nil => intro ac m l h; exact .inl h
  | cons it rest ih =>
      intro ac m l h
      rw [geoProcess] at h
      by_cases hd : distanceTo g center (g.locOf it.cell) unit ≤ radius
      · rw [if_pos hd] at h
        rcases ih _ m l h with hmem | hdist
        · rcases List.mem_append.1 hmem with h1 | h1
          · exact .inl h1
          · rw [List.mem_singleton] at h1
            cases h1
            exact .inr hd
        · exact .inr hdist
      · rw [if_neg hd] at h
        exact ih _ m l h

/-- Accepted members of the per-cell page loop were either already accepted
or passed the distance filter. -/
theorem geoInner_mem (g : GeoLib) (st : GeoStore) (key : String) (lo hi : Nat)
    (center : Location) (radius : ℚ) (unit : GUnit) :
    ∀ (fuel pos : Nat) (hasMore : Bool) (ac : List (String × Location) × Int)
      (m : String) (l : Location),
      (m, l) ∈ (geoInner g st key lo hi center radius unit fuel pos hasMore ac).1 →
      (m, l) ∈ ac.1 ∨ distanceTo g center l unit ≤ radius := by
  intro fuel
  induction fuel with
  | zero => intro pos hasMore ac m l h; exact .inl h
  | succ fuel ih =>
      intro pos hasMore ac m l h
      rw [geoInner] at h
      by_cases hc : (hasMore && decide (0 < ac.2)) = true
      · rw [if_pos hc] at h
        rcases ih _ _ _ m l h with hmem | hdist
        · exact geoProcess_mem g center radius unit _ ac m l hmem
        · exact .inr hdist
      · rw [if_neg hc] at h
        exact .inl h

/-- Accepted members of the fold over covering cells were either already
accepted or passed the distance filter. -/
theorem geoFold_mem (g : GeoLib) (st : GeoStore) (key : String)
    (center : Location) (radius : ℚ) (unit : GUnit) :
    ∀ (cells : List (Nat × Nat)) (ac : List (String × Location) × Int)
      (m : String) (l : Location),
      (m, l) ∈ (cells.foldl
        (fun ac cell =>
          geoInner g st key cell.1 cell.2 center radius unit
            (st.items.length + 1) 0 true ac) ac).1 →
      (m, l) ∈ ac.1 ∨ distanceTo g center l unit ≤ radius := by
  intro cells
  induction cells with
  | nil => intro ac m l h; exact .inl h
  | cons c cs ih =>
      intro ac m l h
      rw [List.foldl_cons] at h
      rcases ih _ m l h with hmem | hdist
      · exact geoInner_mem g st key c.1 c.2 center radius unit _ _ _ _ m l hmem
      · exact .inr hdist

/-- C7: every member a GEORADIUS call returns passed the exact recomputed
great-circle-distance post-filter: its distance to the center, in the query
unit, is within the radius.  In particular a stored member whose true
distance exceeds the radius is never returned, even when its covering cell
overlaps the search region (cell coverage is only a superset filter). -/
theorem C7_theorem (g : GeoLib) (st : GeoStore) (key : String)
    (center : Location) (radius : ℚ) (unit : GUnit) (count : Int)
    (m : String) (l : Location)
    (h : (m, l) ∈ GEORADIUS g st key center radius unit count) :
    distanceTo g center l unit ≤ radius := by
  unfold GEORADIUS at h
  rcases geoFold_mem g st key center radius unit _ _ m l h with hmem | hdist
  · simp at hmem
  · exact hdist

/-- C7 (witness): under `g0`, member m1 (distance 3) is returned by the
radius-5 search around the origin, and the theorem bounds its distance. -/
theorem C7_witness :
    distanceTo g0 ⟨0, 0⟩ ⟨(3:ℚ), 0⟩ Meters ≤ 5 :=
  C7_theorem g0 gs1 "g" ⟨0, 0⟩ 5 Meters 10 "m1" ⟨(3:ℚ), 0⟩ (by
    simp [GEORADIUS, g0, gs1, geoInner, geoPage, geoMatches, sortGeo, insertGeo,
      geoLe, geoProcess]
    norm_num [distanceTo, GUnit.To, Meters])

/-- C8 (counterexample): with the second member's write failing, the first
member's write completed (its item is in the returned table) and the store
error is returned, yet the returned count is 0 — not the one completed
write the claim's error clause asserts. -/
theorem C8_counterexample :
    (GEOADD g0 (fun m => m == "mb") [] "g" [("ma", ⟨0, 0⟩), ("mb", ⟨0, 0⟩)]).2.2 =
      some .storeError ∧
    (GEOADD g0 (fun m => m == "mb") [] "g" [("ma", ⟨0, 0⟩), ("mb", ⟨0, 0⟩)]).2.1 =
      [⟨"g", "ma", g0.cellOf ⟨0, 0⟩⟩] ∧
    (GEOADD g0 (fun m => m == "mb") [] "g" [("ma", ⟨0, 0⟩), ("mb", ⟨0, 0⟩)]).1 ≠
      geoAddClaimedCountC8 (fun m => m == "mb") [("ma", ⟨0, 0⟩), ("mb", ⟨0, 0⟩)] := by
  refine ⟨?_, ?_, ?_⟩ <;> decide

/-- C8 (amended): `addedCount` is never incremented anywhere in `GEOADD`, so
the returned count is 0 on every path — on success and equally on a store
error, whatever number of writes completed before it; the count carries no
information at all. -/
theorem C8_theorem (g : GeoLib) (failOn : String → Bool) (t : GeoTable)
    (key : String) (members : List (String × Location)) :
    (GEOADD g failOn t key members).1 = 0 := by
  unfold GEOADD
  suffices h : ∀ (ms : List (String × Location)) (a : Int) (tb : GeoTable),
      (geoAddGo g failOn key ms a tb).1 = a by
    exact h members 0 t
  intro ms
  induction ms with
  | nil => intro a tb; rfl
  | cons m rest ih =>
      intro a tb
      rw [geoAddGo]
      by_cases hf : failOn m.1 = true
      · rw [if_pos hf]
      · rw [if_neg hf]
        exact ih a _

/-- C10: for a member name not stored in the collection,
`GEORADIUSBYMEMBER` does not fail: `GEOPOS` returns no entry for it, the Go
map access yields the zero-value location (lat 0, lon 0), and the radius
search is performed around latitude 0, longitude 0. -/
theorem C10_theorem (g : GeoLib) (st : GeoStore) (key member : String)
    (radius : ℚ) (unit : GUnit) (count : Int)
    (h : findG st.items key member = none) :
    GEORADIUSBYMEMBER g st key member radius unit count =
      GEORADIUS g st key ⟨0, 0⟩ radius unit count := by
  simp [GEORADIUSBYMEMBER, GEOPOS, h]

/-- C10 (witness): a member absent from the concrete store searches around
the origin. -/
theorem C10_witness :
    GEORADIUSBYMEMBER g0 gs1 "g" "nosuch" 5 Meters 10 =
      GEORADIUS g0 gs1 "g" ⟨0, 0⟩ 5 Meters 10 :=
  C10_theorem g0 gs1 "g" "nosuch" 5 Meters 10 (by decide)

end Redimo
